import Mathlib

/-!
Verification of the CustomKnight Creator sprite-management core
(`src/Sprite.py`, `src/spritehandler.py`, `src/util.py`) against its
natural-language specification.  The Python code is shallowly embedded:
Python ints are `ℤ`/`ℕ`, `pathlib.Path` values are `String`s, dictionaries
are association lists with Python-dict insertion semantics, fallible
statements return `Except`/`Option`, and the mutable `SpriteHandler`
state is passed explicitly.
-/

/-- Embedding of the `Sprite` dataclass of `src/Sprite.py` (lines 11-30):
per-sprite placement, crop, orientation and source metadata, together with
the mutable `mtime` field used by the file cache (`None` until the first
read). -/
structure Sprite where
  identifier : ℤ
  x : ℤ
  y : ℤ
  xr : ℤ
  yr : ℤ
  w : ℤ
  h : ℤ
  flipped : Bool
  path : String
  collection : String
  mtime : Option ℤ := none
deriving DecidableEq, Repr

/-- Embedding of the extent computation of `SpriteHandler.pack_sheets`
(`src/spritehandler.py` lines 248-258): folds over the sprites of one
collection, starting from `(0, 0)`.  The flipped branch takes
`(max w (x+h), max h (y+w))`; the unflipped branch takes
`(max w (x+w), max h y)` - exactly as in the source, which adds no `+ h`
in its unflipped height update. -/
def packExtents (sprites : List Sprite) : ℤ × ℤ :=
  sprites.foldl
    (fun acc s =>
      if s.flipped then (max acc.1 (s.x + s.h), max acc.2 (s.y + s.w))
      else (max acc.1 (s.x + s.w), max acc.2 s.y))
    (0, 0)

/-- Fuel-driven computation of `ceil(log2 m)`: `0` for `m ≤ 1`, otherwise
`1 + ceilLog2 (ceil (m / 2))`.  The fuel argument only forces structural
recursion; `ceilLog2` supplies `m` itself, which is always enough fuel. -/
def ceilLog2Go : ℕ → ℕ → ℕ
  | 0, _ => 0
  | fuel + 1, m => if m ≤ 1 then 0 else ceilLog2Go fuel ((m + 1) / 2) + 1

/-- Exact model of `math.ceil(math.log2 m)` for `m ≥ 1`.  (The Python
source computes this with double-precision `math.log2`, which agrees with
the exact value for every argument small enough to matter here; all
inputs used below are tiny.) -/
def ceilLog2 (m : ℕ) : ℕ := ceilLog2Go m m

/-- Embedding of `util.min_dimension` (`src/util.py` lines 73-88):
`2 ** ceil(log2 (l - 1))`.  `math.log2` raises `ValueError: math domain
error` when its argument `l - 1` is `≤ 0`, i.e. for every `l ≤ 1`; that
crash is modelled as `none`. -/
def min_dimension (l : ℤ) : Option ℤ :=
  if l - 1 ≤ 0 then none else some ((2 : ℤ) ^ ceilLog2 (l - 1).toNat)

/-- Helper for `ceilLog2_spec`: with enough fuel, `ceilLog2Go` returns a
`k` with `m ≤ 2 ^ k`, and the least such `k`. -/
theorem ceilLog2Go_spec (fuel : ℕ) : ∀ m : ℕ, 1 ≤ m → m ≤ fuel →
    (m ≤ 2 ^ ceilLog2Go fuel m ∧ ∀ k : ℕ, m ≤ 2 ^ k → ceilLog2Go fuel m ≤ k) := by
  induction fuel with
  | zero => intro m h1 h2; omega
  | succ fuel ih =>
    intro m h1 h2
    by_cases hm : m ≤ 1
    · constructor
      · simp only [ceilLog2Go, if_pos hm]
        omega
      · intro k _
        simp [ceilLog2Go, hm]
    · have hm2 : 2 ≤ m := by omega
      have hrec : (m + 1) / 2 ≤ fuel := by omega
      have hrec1 : 1 ≤ (m + 1) / 2 := by omega
      obtain ⟨hle, hmin⟩ := ih ((m + 1) / 2) hrec1 hrec
      constructor
      · simp only [ceilLog2Go, if_neg hm]
        have : m ≤ 2 * ((m + 1) / 2) := by omega
        calc m ≤ 2 * ((m + 1) / 2) := this
        _ ≤ 2 * 2 ^ ceilLog2Go fuel ((m + 1) / 2) := by omega
        _ = 2 ^ (ceilLog2Go fuel ((m + 1) / 2) + 1) := by ring
      · intro k hk
        simp only [ceilLog2Go, if_neg hm]
        have hk1 : 1 ≤ k := by
          by_contra hk0
          have : k = 0 := by omega
          subst this
          simp at hk
          omega
        have h2k : 2 ^ k = 2 * 2 ^ (k - 1) := by
          have : k - 1 + 1 = k := by omega
          calc 2 ^ k = 2 ^ (k - 1 + 1) := by rw [this]
          _ = 2 * 2 ^ (k - 1) := by ring
        have hhalf : (m + 1) / 2 ≤ 2 ^ (k - 1) := by omega
        have := hmin (k - 1) hhalf
        omega

/-- Characterisation of `ceilLog2`: for `m ≥ 1` it returns the least `k`
with `m ≤ 2 ^ k`, i.e. exactly `ceil (log2 m)`. -/
theorem ceilLog2_spec (m : ℕ) (h1 : 1 ≤ m) :
    m ≤ 2 ^ ceilLog2 m ∧ ∀ k : ℕ, m ≤ 2 ^ k → ceilLog2 m ≤ k :=
  ceilLog2Go_spec m m h1 (le_refl m)

/-- Closed witness for `ceilLog2_spec` at `m = 5`: `ceilLog2 5 = 3`. -/
theorem ceilLog2_spec_witness :
    5 ≤ 2 ^ ceilLog2 5 ∧ ∀ k : ℕ, 5 ≤ 2 ^ k → ceilLog2 5 ≤ k :=
  ceilLog2_spec 5 (by decide)

/-- Single unflipped sprite exercising the extent computation of
`pack_sheets`: placement `x = 0, y = 0`, size `w = 4, h = 5`. -/
def c1Sprite : Sprite :=
  { identifier := 1, x := 0, y := 0, xr := 0, yr := 0, w := 4, h := 5,
    flipped := false, path := "Knight/Idle/0001.png", collection := "Knight" }

/-- C1: for an unflipped sprite the claimed vertical canvas extent is
`y + h`, but `pack_sheets` (line 258) updates the height extent with
`max(max_height, sprite.y)` only: a collection whose single unflipped
sprite has `y = 0, h = 5` gets vertical extent `0`, not `5`, so the
computed canvas cannot contain the sprite (the flipped branch and the
paste position at line 272 both use the full placed height, confirming
the omission is a slip). -/
theorem pack_sheets_unflipped_height_dropped :
    packExtents [c1Sprite] = (4, 0) ∧ c1Sprite.y + c1Sprite.h = 5 := by
  constructor
  · rfl
  · rfl

/-- C2: `min_dimension` has no special case for extents `≤ 1`: for
`l = 1` and `l = 0` the source evaluates `math.log2 0` respectively
`math.log2 (-1)` and raises `ValueError: math domain error` (modelled as
`none`) instead of returning a minimum canvas size. -/
theorem min_dimension_crashes_on_le_one :
    min_dimension 1 = none ∧ min_dimension 0 = none := by
  constructor
  · rfl
  · rfl

/-- C3: `min_dimension` does not return the smallest power of two `≥ l`:
at `l = 3` it returns `2 ** ceil(log2 2) = 2 < 3` (the smallest power of
two containing extent `3` is `4`), and at `l = 2` it returns `1 < 2` -
contradicting its own docstring, which promises "the spritesheet
dimension needed to accommodate a given length". -/
theorem min_dimension_too_small :
    min_dimension 3 = some 2 ∧ (2 : ℤ) < 3 ∧ min_dimension 2 = some 1 := by
  refine ⟨rfl, by decide, rfl⟩

/-- Outcome of one `pack_sheets` call: `res b` models a normal return of
the boolean `b`; `exn` models the uncaught `ValueError` that
`min_dimension` raises on a degenerate extent (only `OSError` from the
save is caught by the source). -/
inductive PackOutcome where
  | res : Bool → PackOutcome
  | exn : PackOutcome
deriving DecidableEq, Repr

/-- Bookkeeping of the filesystem effects of `pack_sheets`: which
collections had a save attempted, which saves succeeded (files now on
disk), and how the call ended. -/
structure PackRun where
  attempted : List String
  written : List String
  outcome : PackOutcome
deriving DecidableEq, Repr

/-- Embedding of the loop of `SpriteHandler.pack_sheets`
(`src/spritehandler.py` lines 244-279).  `spritesOf` models the
by-collection index lookup; `saveOk` models whether `out.save` succeeds
for a given collection (an `OSError` makes the method return `False`
immediately).  Pixel pasting has no bearing on control flow and is not
tracked; the sprite-content file reads are assumed to succeed. -/
def pack_sheets (spritesOf : String → List Sprite) (saveOk : String → Bool) :
    List (String × Bool) → PackRun
  | [] => ⟨[], [], .res true⟩
  | (name, enabled) :: rest =>
    if enabled then
      match min_dimension (packExtents (spritesOf name)).1,
            min_dimension (packExtents (spritesOf name)).2 with
      | some _, some _ =>
        if saveOk name then
          let r := pack_sheets spritesOf saveOk rest
          ⟨name :: r.attempted, name :: r.written, r.outcome⟩
        else ⟨[name], [], .res false⟩
      | _, _ => ⟨[], [], .exn⟩
    else pack_sheets spritesOf saveOk rest

/-- Names of the enabled collections, in iteration order. -/
def enabledNames (cols : List (String × Bool)) : List String :=
  cols.filterMap (fun c => if c.2 then some c.1 else none)

/-- Sprite whose extents pass `min_dimension` (unflipped, `x = 0, y = 4,
w = 8`, giving extents `(8, 4)`). -/
def c4Sprite : Sprite :=
  { identifier := 2, x := 0, y := 4, xr := 0, yr := 0, w := 8, h := 3,
    flipped := false, path := "Knight/Run/0001.png", collection := "A" }

/-- Save oracle for the C4 counterexample: saving collection `"A"`
raises `OSError`, saving anything else succeeds. -/
def c4SaveOk : String → Bool := fun n => n ≠ "A"

/-- C4: with two enabled collections `"A"` and `"B"` whose canvases are
well-defined, and a save that fails on `"A"`, `pack_sheets` returns
`False` at once: collection `"B"` is enabled but its write is never
attempted, refuting the claim that every enabled collection is attempted
after an earlier failure. -/
theorem pack_sheets_not_batched_cex :
    (pack_sheets (fun _ => [c4Sprite]) c4SaveOk [("A", true), ("B", true)]).attempted
      = ["A"] ∧
    ("B" ∉ (pack_sheets (fun _ => [c4Sprite]) c4SaveOk
      [("A", true), ("B", true)]).attempted) ∧
    (pack_sheets (fun _ => [c4Sprite]) c4SaveOk [("A", true), ("B", true)]).outcome
      = PackOutcome.res false := by
  refine ⟨rfl, by decide, rfl⟩

/-- C4 (amended): provided every enabled collection has a well-defined
canvas, `pack_sheets` walks the enabled collections in order and stops at
the first failed save: the saves attempted are the successful prefix plus
the single failing collection (if any), only that prefix is written (and
stays written), and the returned boolean is `True` iff every enabled
collection's save succeeds. -/
theorem pack_sheets_first_failure (spritesOf : String → List Sprite)
    (saveOk : String → Bool) (cols : List (String × Bool))
    (hdim : ∀ name ∈ enabledNames cols,
      (min_dimension (packExtents (spritesOf name)).1).isSome ∧
      (min_dimension (packExtents (spritesOf name)).2).isSome) :
    pack_sheets spritesOf saveOk cols =
      ⟨(enabledNames cols).takeWhile saveOk
          ++ ((enabledNames cols).dropWhile saveOk).take 1,
        (enabledNames cols).takeWhile saveOk,
        .res ((enabledNames cols).all saveOk)⟩ := by
  induction cols with
  | nil => rfl
  | cons c rest ih =>
    obtain ⟨name, enabled⟩ := c
    by_cases he : enabled = true
    · subst he
      have hmem : name ∈ enabledNames ((name, true) :: rest) := by
        simp [enabledNames]
      obtain ⟨h1, h2⟩ := hdim name hmem
      have hrest : ∀ n ∈ enabledNames rest,
          (min_dimension (packExtents (spritesOf n)).1).isSome ∧
          (min_dimension (packExtents (spritesOf n)).2).isSome := by
        intro n hn
        refine hdim n ?_
        simp only [enabledNames, List.filterMap_cons] at hn ⊢
        simp [hn]
      have hen : enabledNames ((name, true) :: rest) = name :: enabledNames rest := by
        simp [enabledNames]
      obtain ⟨d1, hd1⟩ := Option.isSome_iff_exists.mp h1
      obtain ⟨d2, hd2⟩ := Option.isSome_iff_exists.mp h2
      by_cases hs : saveOk name = true
      · simp [pack_sheets, hd1, hd2, hs, hen, ih hrest, List.takeWhile_cons,
          List.dropWhile_cons]
      · have hs' : saveOk name = false := by simpa using hs
        simp [pack_sheets, hd1, hd2, hs', hen, List.takeWhile_cons,
          List.dropWhile_cons]
    · have he' : enabled = false := by simpa using he
      subst he'
      have hen : enabledNames ((name, false) :: rest) = enabledNames rest := by
        simp [enabledNames]
      have hrest : ∀ n ∈ enabledNames rest,
          (min_dimension (packExtents (spritesOf n)).1).isSome ∧
          (min_dimension (packExtents (spritesOf n)).2).isSome := by
        intro n hn
        refine hdim n ?_
        rw [hen]
        exact hn
      simp [pack_sheets, hen, ih hrest]

/-- Closed witness for `pack_sheets_first_failure`: one enabled
collection whose save succeeds is attempted, written, and the call
returns `True`. -/
theorem pack_sheets_first_failure_witness :
    pack_sheets (fun _ => [c4Sprite]) (fun _ => true) [("A", true)] =
      ⟨(enabledNames [("A", true)]).takeWhile (fun _ => true)
          ++ ((enabledNames [("A", true)]).dropWhile (fun _ => true)).take 1,
        (enabledNames [("A", true)]).takeWhile (fun _ => true),
        .res ((enabledNames [("A", true)]).all (fun _ => true))⟩ :=
  pack_sheets_first_failure (fun _ => [c4Sprite]) (fun _ => true) [("A", true)]
    (by decide)

/-- Parsed JSON content of one `SpriteInfo.json` descriptor file: the ten
parallel arrays read by `load_sprite_info` (`src/spritehandler.py` lines
106-124, including the source's `sfilpped` typo).  A `none` field models
a key that is absent from the JSON object (`data[...]` raises
`KeyError`). -/
structure RawData where
  sid : Option (List ℤ)
  sx : Option (List ℤ)
  sy : Option (List ℤ)
  sxr : Option (List ℤ)
  syr : Option (List ℤ)
  swidth : Option (List ℤ)
  sheight : Option (List ℤ)
  sfilpped : Option (List Bool)
  spath : Option (List String)
  scollectionname : Option (List String)
deriving DecidableEq, Repr

/-- Model of `self.sprite_path.joinpath(p)` for a relative `p`. -/
def joinPath (sp p : String) : String := if sp = "" then p else sp ++ "/" ++ p

/-- Model of `Path.parent.name`, used for `Sprite.animation`
(`src/Sprite.py` line 94). -/
def animationOf (p : String) : String := ((p.splitOn "/").dropLast).getLastD ""

/-- Model of the `zip`/`starmap` sprite construction inside
`load_sprite_info` (`src/spritehandler.py` lines 109-123): the ten field
accesses raise `KeyError` when a key is missing (`none`), otherwise
Python's `zip` silently truncates every array to the shortest one. -/
def zipRows (sp : String) (d : RawData) : Option (List Sprite) :=
  match d.sid, d.sx, d.sy, d.sxr, d.syr, d.swidth, d.sheight, d.sfilpped,
      d.spath, d.scollectionname with
  | some sid, some sx, some sy, some sxr, some syr, some sw, some sh,
      some sf, some sps, some scn =>
    some ((sid.zip (sx.zip (sy.zip (sxr.zip (syr.zip (sw.zip (sh.zip
        (sf.zip (sps.zip scn))))))))).map
      (fun t =>
        { identifier := t.1, x := t.2.1, y := t.2.2.1, xr := t.2.2.2.1,
          yr := t.2.2.2.2.1, w := t.2.2.2.2.2.1, h := t.2.2.2.2.2.2.1,
          flipped := t.2.2.2.2.2.2.2.1,
          path := joinPath sp t.2.2.2.2.2.2.2.2.1,
          collection := t.2.2.2.2.2.2.2.2.2 }))
  | _, _, _, _, _, _, _, _, _, _ => none

/-- Whether every one of the ten descriptor keys is present. -/
def allFieldsPresent (d : RawData) : Bool :=
  d.sid.isSome && (d.sx.isSome && (d.sy.isSome && (d.sxr.isSome &&
    (d.syr.isSome && (d.swidth.isSome && (d.sheight.isSome &&
    (d.sfilpped.isSome && (d.spath.isSome && d.scollectionname.isSome))))))))

/-- Length of the shortest of the ten parallel arrays (nested to match
the `zip` association used by `zipRows`). -/
def minLen10 (d : RawData) : ℕ :=
  (d.sid.getD []).length ⊓ ((d.sx.getD []).length ⊓ ((d.sy.getD []).length ⊓
    ((d.sxr.getD []).length ⊓ ((d.syr.getD []).length ⊓
    ((d.swidth.getD []).length ⊓ ((d.sheight.getD []).length ⊓
    ((d.sfilpped.getD []).length ⊓ ((d.spath.getD []).length ⊓
    (d.scollectionname.getD []).length))))))))

/-- Failure kinds of `load_sprite_info`: `ioError` models an unreadable
or unparsable descriptor file (`open`/`json.load` raising), `keyError`
models a missing descriptor key. -/
inductive LoadError where
  | ioError : LoadError
  | keyError : LoadError
deriving DecidableEq, Repr

/-- The mutable registry state of a `SpriteHandler`: the master sprite
index `__sprites` (a Python dict, modelled as an association list with
dict insertion semantics) and the two secondary indexes
`__s_by_collection` and `__s_by_animation`. -/
structure HandlerState where
  sprites : List (String × Sprite)
  byCollection : List (String × List String)
  byAnimation : List (String × List String)
deriving DecidableEq, Repr

/-- Model of the read loop of `load_sprite_info` (lines 99-104): reads
each descriptor in order, failing on the first unreadable file or the
first file whose `scollectionname` key is missing
(`collections.update(data["scollectionname"])`); on success returns the
raw data records and all collection names encountered. -/
def readPhase : List (Option RawData) → Except LoadError (List RawData × List String)
  | [] => .ok ([], [])
  | none :: _ => .error .ioError
  | some d :: rest =>
    match d.scollectionname with
    | none => .error .keyError
    | some names =>
      match readPhase rest with
      | .error e => .error e
      | .ok (raws, cols) => .ok (d :: raws, cols ++ names)

/-- Model of the dict-comprehension body (lines 106-124): builds the
sprites of every raw record in order; the first record with a missing
key raises `KeyError` before the comprehension finishes, so nothing is
assigned. -/
def buildAll (sp : String) : List RawData → Option (List Sprite)
  | [] => some []
  | d :: rest =>
    match zipRows sp d with
    | none => none
    | some rows =>
      match buildAll sp rest with
      | none => none
      | some more => some (rows ++ more)

/-- Python-dict insertion: an existing key keeps its position and gets
the new value, a new key is appended. -/
def dictInsert (reg : List (String × Sprite)) (k : String) (v : Sprite) :
    List (String × Sprite) :=
  if reg.any (fun e => e.1 = k) then reg.map (fun e => if e.1 = k then (k, v) else e)
  else reg ++ [(k, v)]

/-- The sprite dict keyed by `sprite.path` (line 107). -/
def buildReg (sprites : List Sprite) : List (String × Sprite) :=
  sprites.foldl (fun reg s => dictInsert reg s.path s) []

/-- `defaultdict(list)` append: `index[k].append(v)`. -/
def addIndex (m : List (String × List String)) (k v : String) :
    List (String × List String) :=
  if m.any (fun e => e.1 = k) then
    m.map (fun e => if e.1 = k then (k, e.2 ++ [v]) else e)
  else m ++ [(k, [v])]

/-- Model of `__populate_sprites` (lines 185-200): rebuilds both
secondary indexes from scratch from the master dict. -/
def populate (reg : List (String × Sprite)) :
    List (String × List String) × List (String × List String) :=
  reg.foldl
    (fun acc pr =>
      (addIndex acc.1 pr.2.collection pr.1, addIndex acc.2 (animationOf pr.1) pr.1))
    ([], [])

/-- Model of `sorted(collections)` on the set of collection names. -/
def sortedNames (names : List String) : List String :=
  List.insertionSort (fun a b => a ≤ b) names.eraseDups

/-- Embedding of `SpriteHandler.load_sprite_info` (`src/spritehandler.py`
lines 78-127) with the handler state passed explicitly.  An error result
carries the handler state as it stands when the exception escapes; the
source assigns `self.__sprites` (and then rebuilds the secondary
indexes) only after every fallible expression has been evaluated, which
is what places every mutation after the last possible failure here. -/
def load_sprite_info (st : HandlerState) (sp : String)
    (files : List (Option RawData)) :
    Except (LoadError × HandlerState) (HandlerState × List String) :=
  match readPhase files with
  | .error e => .error (e, st)
  | .ok (raws, cols) =>
    match buildAll sp raws with
    | none => .error (.keyError, st)
    | some sprites =>
      let reg := buildReg sprites
      .ok ({ sprites := reg, byCollection := (populate reg).1,
             byAnimation := (populate reg).2 }, sortedNames cols)

/-- Whether an `Except` result is a success. -/
def isOkB {ε α : Type _} : Except ε α → Bool
  | .ok _ => true
  | .error _ => false

/-- A `zipRows` result exists exactly when all ten keys are present. -/
theorem zipRows_isSome (sp : String) (d : RawData) :
    (zipRows sp d).isSome = allFieldsPresent d := by
  rcases d with ⟨sid, sx, sy, sxr, syr, sw, sh, sf, sps, scn⟩
  cases sid <;> cases sx <;> cases sy <;> cases sxr <;> cases syr <;>
    cases sw <;> cases sh <;> cases sf <;> cases sps <;> cases scn <;> rfl

/-- The empty handler state (a freshly constructed `SpriteHandler`). -/
def st0 : HandlerState := ⟨[], [], []⟩

/-- Descriptor whose parallel arrays disagree in length: `sid` has two
entries, every other array has one.  All ten keys are present. -/
def d5 : RawData :=
  { sid := some [1, 2], sx := some [0], sy := some [4], sxr := some [0],
    syr := some [0], swidth := some [8], sheight := some [4],
    sfilpped := some [false], spath := some ["Knight/Idle/0001.png"],
    scollectionname := some ["Knight"] }

/-- C5: loading the length-mismatched descriptor `d5` raises no error at
all - `zip` silently truncates to the shortest array and
`load_sprite_info` builds a one-sprite registry from it (there is no
`MalformedDescriptorError` anywhere in the source). -/
theorem load_sprite_info_mismatch_cex :
    (load_sprite_info st0 "" [some d5]).toOption.map
      (fun r => r.1.sprites.length) = some 1 := by
  rfl

/-- C5 (amended): `load_sprite_info` succeeds on a descriptor exactly
when all ten keys are present - length mismatches between the parallel
arrays are never detected; `zip` silently truncates every array to the
shortest one (the rows built number `minLen10 d`), and the only failure
on a readable, parsable descriptor is the `KeyError` of a missing key. -/
theorem load_sprite_info_missing_field_iff (st : HandlerState) (sp : String)
    (d : RawData) :
    isOkB (load_sprite_info st sp [some d]) = allFieldsPresent d ∧
    (zipRows sp d).elim True (fun rows => rows.length = minLen10 d) := by
  constructor
  · cases hscn : d.scollectionname with
    | none =>
      have hf : allFieldsPresent d = false := by
        simp [allFieldsPresent, hscn]
      simp [load_sprite_info, readPhase, hscn, isOkB, hf]
    | some names =>
      cases hz : zipRows sp d with
      | none =>
        have hf : allFieldsPresent d = false := by
          rw [← zipRows_isSome sp d, hz]
          rfl
        simp [load_sprite_info, readPhase, hscn, buildAll, hz, isOkB, hf]
      | some rows =>
        have ht : allFieldsPresent d = true := by
          rw [← zipRows_isSome sp d, hz]
          rfl
        simp [load_sprite_info, readPhase, hscn, buildAll, hz, isOkB, ht]
  · cases hz : zipRows sp d with
    | none => trivial
    | some rows =>
      have hall : allFieldsPresent d = true := by
        rw [← zipRows_isSome sp d, hz]
        rfl
      rcases d with ⟨sid, sx, sy, sxr, syr, sw, sh, sf, sps, scn⟩
      simp only [allFieldsPresent, Bool.and_eq_true, Option.isSome_iff_exists]
        at hall
      obtain ⟨⟨a1, e1⟩, ⟨a2, e2⟩, ⟨a3, e3⟩, ⟨a4, e4⟩, ⟨a5, e5⟩, ⟨a6, e6⟩,
        ⟨a7, e7⟩, ⟨a8, e8⟩, ⟨a9, e9⟩, ⟨a10, e10⟩⟩ := hall
      subst e1 e2 e3 e4 e5 e6 e7 e8 e9 e10
      simp only [zipRows] at hz
      injection hz with hz
      subst hz
      simp only [Option.elim, minLen10, Option.getD_some, List.length_map,
        List.length_zip]

/-- C6: whenever `load_sprite_info` fails - unreadable file, unparsable
content, or missing key - the handler state carried out by the error is
exactly the previous state: the sprite index and both secondary indexes
are untouched, because the source's only mutations (`self.__sprites`
assignment and the `__populate_sprites` rebuild) happen after every
fallible expression has been evaluated. -/
theorem load_sprite_info_state_on_error (st : HandlerState) (sp : String)
    (files : List (Option RawData)) (p : LoadError × HandlerState)
    (h : load_sprite_info st sp files = .error p) :
    p.2.sprites = st.sprites ∧ p.2.byCollection = st.byCollection ∧
      p.2.byAnimation = st.byAnimation := by
  unfold load_sprite_info at h
  split at h
  · injection h with h1
    subst h1
    exact ⟨rfl, rfl, rfl⟩
  · split at h
    · injection h with h1
      subst h1
      exact ⟨rfl, rfl, rfl⟩
    · exact Except.noConfusion h

/-- Closed witness for `load_sprite_info_state_on_error`: an unreadable
descriptor file fails the load and the empty state comes through
unchanged. -/
theorem load_sprite_info_state_on_error_witness :
    load_sprite_info st0 "" [none] = .error (.ioError, st0) ∧
      ((LoadError.ioError, st0).2.sprites = st0.sprites ∧
       (LoadError.ioError, st0).2.byCollection = st0.byCollection ∧
       (LoadError.ioError, st0).2.byAnimation = st0.byAnimation) :=
  ⟨rfl, load_sprite_info_state_on_error st0 "" [none] (.ioError, st0) rfl⟩

/-- Decimal digit characters of a natural number, most significant
first: the characters of Python's `str(n)`. -/
def natChars (n : ℕ) : List Char :=
  if n = 0 then ['0'] else (Nat.digits 10 n).reverse.map Nat.digitChar

/-- Model of Python `str` applied to an `int` image hash
(`str(sprite.image_hash)` in `src/spritehandler.py` lines 334 and 365):
the decimal representation, with a leading minus sign when negative. -/
def hashStr (h : ℤ) : String :=
  if h < 0 then ⟨'-' :: natChars h.natAbs⟩ else ⟨natChars h.toNat⟩

/-- `Nat.digitChar` is injective on decimal digits. -/
theorem digitChar_inj10 : ∀ a : ℕ, a < 10 → ∀ b : ℕ, b < 10 →
    Nat.digitChar a = Nat.digitChar b → a = b := by decide

/-- No decimal digit prints as a minus sign. -/
theorem digitChar_ne_dash : ∀ a : ℕ, a < 10 → Nat.digitChar a ≠ '-' := by
  decide

/-- Only the digit `0` prints as `'0'`. -/
theorem digitChar_eq_zero : ∀ a : ℕ, a < 10 → Nat.digitChar a = '0' → a = 0 := by
  decide

/-- A decimal representation is never the empty character list. -/
theorem natChars_ne_nil (n : ℕ) : natChars n ≠ [] := by
  unfold natChars
  split
  · simp
  · intro h
    rw [List.map_eq_nil_iff, List.reverse_eq_nil_iff] at h
    exact absurd h (Nat.digits_ne_nil_iff_ne_zero.mpr (by assumption))

/-- A minus sign never occurs in the decimal representation of a natural
number. -/
theorem mem_natChars_ne_dash (n : ℕ) : ∀ c ∈ natChars n, c ≠ '-' := by
  unfold natChars
  split
  · intro c hc
    simp at hc
    subst hc
    decide
  · intro c hc
    simp only [List.mem_map, List.mem_reverse] at hc
    obtain ⟨d, hd, rfl⟩ := hc
    exact digitChar_ne_dash d (Nat.digits_lt_base (by norm_num) hd)

/-- Mapping `Nat.digitChar` over digit lists is injective. -/
theorem map_digitChar_inj : ∀ (l1 l2 : List ℕ), (∀ x ∈ l1, x < 10) →
    (∀ x ∈ l2, x < 10) → l1.map Nat.digitChar = l2.map Nat.digitChar →
    l1 = l2 := by
  intro l1
  induction l1 with
  | nil =>
    intro l2 _ _ h
    cases l2 with
    | nil => rfl
    | cons b t2 => simp at h
  | cons a t ih =>
    intro l2 h1 h2 h
    cases l2 with
    | nil => simp at h
    | cons b t2 =>
      simp only [List.map_cons, List.cons.injEq] at h
      obtain ⟨hab, ht⟩ := h
      have hae : a = b :=
        digitChar_inj10 a (h1 a (by simp)) b (h2 b (by simp)) hab
      subst hae
      rw [ih t2 (fun x hx => h1 x (by simp [hx])) (fun x hx => h2 x (by simp [hx])) ht]

/-- `natChars` is injective. -/
theorem natChars_inj (m n : ℕ) (h : natChars m = natChars n) : m = n := by
  by_cases hm : m = 0 <;> by_cases hn : n = 0
  · omega
  · exfalso
    rw [natChars, if_pos hm, natChars, if_neg hn] at h
    cases hrev : (Nat.digits 10 n).reverse with
    | nil =>
      rw [List.reverse_eq_nil_iff] at hrev
      exact Nat.digits_ne_nil_iff_ne_zero.mpr hn hrev
    | cons c t =>
      rw [hrev] at h
      simp only [List.map_cons, List.cons.injEq] at h
      obtain ⟨hc, ht⟩ := h
      have hct : t.map Nat.digitChar = [] := ht.symm
      rw [List.map_eq_nil_iff] at hct
      subst hct
      have hcd : c ∈ Nat.digits 10 n := by
        rw [← List.mem_reverse, hrev]
        simp
      have hc0 : c = 0 :=
        digitChar_eq_zero c (Nat.digits_lt_base (by norm_num) hcd) hc.symm
      subst hc0
      have hdig : Nat.digits 10 n = [0] := by
        have := congrArg List.reverse hrev
        simpa using this
      have : n = 0 := by
        have h0 := Nat.ofDigits_digits 10 n
        rw [hdig] at h0
        simpa using h0.symm
      exact hn this
  · exfalso
    rw [natChars, if_neg hm, natChars, if_pos hn] at h
    cases hrev : (Nat.digits 10 m).reverse with
    | nil =>
      rw [List.reverse_eq_nil_iff] at hrev
      exact Nat.digits_ne_nil_iff_ne_zero.mpr hm hrev
    | cons c t =>
      rw [hrev] at h
      simp only [List.map_cons, List.cons.injEq] at h
      obtain ⟨hc, ht⟩ := h
      rw [List.map_eq_nil_iff] at ht
      subst ht
      have hcd : c ∈ Nat.digits 10 m := by
        rw [← List.mem_reverse, hrev]
        simp
      have hc0 : c = 0 :=
        digitChar_eq_zero c (Nat.digits_lt_base (by norm_num) hcd) hc
      subst hc0
      have hdig : Nat.digits 10 m = [0] := by
        have := congrArg List.reverse hrev
        simpa using this
      have : m = 0 := by
        have h0 := Nat.ofDigits_digits 10 m
        rw [hdig] at h0
        simpa using h0.symm
      exact hm this
  · rw [natChars, if_neg hm, natChars, if_neg hn] at h
    have hb1 : ∀ x ∈ (Nat.digits 10 m).reverse, x < 10 := fun x hx =>
      Nat.digits_lt_base (by norm_num) (List.mem_reverse.mp hx)
    have hb2 : ∀ x ∈ (Nat.digits 10 n).reverse, x < 10 := fun x hx =>
      Nat.digits_lt_base (by norm_num) (List.mem_reverse.mp hx)
    have := map_digitChar_inj _ _ hb1 hb2 h
    rw [List.reverse_inj] at this
    exact Nat.digits_inj_iff.mp this

/-- `str` of an integer hash is never the empty string (so the source's
`if not prev_hash` sentinel only ever detects the initial state). -/
theorem hashStr_ne_empty (h : ℤ) : hashStr h ≠ "" := by
  unfold hashStr
  split
  · intro he
    have hd : ('-' :: natChars h.natAbs) = ([] : List Char) :=
      congrArg String.data he
    cases hd
  · intro he
    exact natChars_ne_nil h.toNat (congrArg String.data he)

/-- `str` of an integer hash is injective: distinct hashes have distinct
string forms. -/
theorem hashStr_injective : Function.Injective hashStr := by
  intro h1 h2 he
  by_cases hn1 : h1 < 0 <;> by_cases hn2 : h2 < 0
  · rw [hashStr, if_pos hn1, hashStr, if_pos hn2] at he
    have hd : ('-' :: natChars h1.natAbs) = ('-' :: natChars h2.natAbs) :=
      congrArg String.data he
    injection hd with _ hd
    have := natChars_inj _ _ hd
    omega
  · rw [hashStr, if_pos hn1, hashStr, if_neg hn2] at he
    have hd : ('-' :: natChars h1.natAbs) = natChars h2.toNat :=
      congrArg String.data he
    have hmem : '-' ∈ natChars h2.toNat := by
      rw [← hd]
      simp
    exact absurd rfl (mem_natChars_ne_dash h2.toNat '-' hmem)
  · rw [hashStr, if_neg hn1, hashStr, if_pos hn2] at he
    have hd : natChars h1.toNat = ('-' :: natChars h2.natAbs) :=
      congrArg String.data he
    have hmem : '-' ∈ natChars h1.toNat := by
      rw [hd]
      simp
    exact absurd rfl (mem_natChars_ne_dash h1.toNat '-' hmem)
  · rw [hashStr, if_neg hn1, hashStr, if_neg hn2] at he
    have hd : natChars h1.toNat = natChars h2.toNat :=
      congrArg String.data he
    have := natChars_inj _ _ hd
    omega

/-- The sort key `order_by_modification` of `sorted_duplicates`
(`src/spritehandler.py` lines 331-335): `2` for an unloaded path, `1`
for a loaded sprite whose current hash string equals the vanilla hash,
`0` for a loaded, edited sprite.  `loaded` models the registry: `some`
of the current `image_hash` for paths in `__sprites`, `none`
otherwise. -/
def dupKey (loaded : String → Option ℤ) (vh : String) (p : String) : ℕ :=
  match loaded p with
  | none => 2
  | some g => if hashStr g = vh then 1 else 0

/-- Embedding of `SpriteHandler.sorted_duplicates` (`src/spritehandler.py`
lines 312-340): filter the group's paths (`dups`, in set iteration
order) to the loaded ones, then stable-sort by `dupKey` (Python's
`sorted` is a stable sort on the key). -/
def sorted_duplicates (loaded : String → Option ℤ) (vh : String)
    (dups : List String) : List String :=
  (dups.filter (fun p => (loaded p).isSome)).mergeSort
    (fun a b => dupKey loaded vh a ≤ dupKey loaded vh b)

/-- A list that is sorted by a key bounded by `1` splits into a key-`0`
prefix followed by a key-`1` suffix. -/
theorem sorted_partition (key : String → ℕ) :
    ∀ l : List String, List.Pairwise (fun a b => key a ≤ key b) l →
    (∀ p ∈ l, key p ≤ 1) →
    ∃ e v, l = e ++ v ∧ (∀ p ∈ e, key p = 0) ∧ (∀ p ∈ v, key p = 1) := by
  intro l
  induction l with
  | nil => exact fun _ _ => ⟨[], [], rfl, by simp, by simp⟩
  | cons a t ih =>
    intro hp hb
    obtain ⟨ha, hp'⟩ := List.pairwise_cons.mp hp
    obtain ⟨e, v, heq, he, hv⟩ := ih hp' (fun p hp => hb p (by simp [hp]))
    rcases Nat.lt_or_ge (key a) 1 with h0 | h1
    · refine ⟨a :: e, v, by rw [heq]; rfl, ?_, hv⟩
      intro p hpe
      rcases List.mem_cons.mp hpe with rfl | hpe
      · omega
      · exact he p hpe
    · have hka : key a = 1 := by
        have := hb a (by simp)
        omega
      refine ⟨[], a :: t, rfl, by simp, ?_⟩
      intro p hpt
      rcases List.mem_cons.mp hpt with rfl | hpt
      · exact hka
      · have hge := ha p hpt
        have hle := hb p (by simp [hpt])
        omega

/-- C7: `sorted_duplicates` returns the group's loaded members and
nothing else - it splits as an "edited" block (loaded, current hash
string differs from the vanilla hash, key 0) followed by a "vanilla"
block (loaded, current hash string equals the vanilla hash, key 1);
no unloaded path occurs, the total length is the number `N` of loaded
members, and the vanilla block's length is the number `K` of loaded
members currently matching the vanilla hash (so the edited block has
length `N - K`). -/
theorem sorted_duplicates_partition (loaded : String → Option ℤ)
    (vh : String) (dups : List String) :
    ∃ e v, sorted_duplicates loaded vh dups = e ++ v ∧
      (∀ p ∈ e, (loaded p).isSome ∧ dupKey loaded vh p = 0) ∧
      (∀ p ∈ v, (loaded p).isSome ∧ dupKey loaded vh p = 1) ∧
      e.length + v.length
        = (dups.filter (fun p => (loaded p).isSome)).length ∧
      v.length = (dups.filter (fun p => (loaded p).isSome)).countP
        (fun p => dupKey loaded vh p = 1) ∧
      e.length = (dups.filter (fun p => (loaded p).isSome)).countP
        (fun p => dupKey loaded vh p = 0) := by
  have htrans : ∀ a b c : String,
      decide (dupKey loaded vh a ≤ dupKey loaded vh b) = true →
      decide (dupKey loaded vh b ≤ dupKey loaded vh c) = true →
      decide (dupKey loaded vh a ≤ dupKey loaded vh c) = true := by
    intro a b c hab hbc
    rw [decide_eq_true_eq] at *
    omega
  have htotal : ∀ a b : String,
      (decide (dupKey loaded vh a ≤ dupKey loaded vh b)
        || decide (dupKey loaded vh b ≤ dupKey loaded vh a)) = true := by
    intro a b
    rw [Bool.or_eq_true, decide_eq_true_eq, decide_eq_true_eq]
    omega
  have hsorted0 := List.sorted_mergeSort htrans htotal
    (dups.filter (fun p => (loaded p).isSome))
  have hsorted : List.Pairwise
      (fun a b => dupKey loaded vh a ≤ dupKey loaded vh b)
      (sorted_duplicates loaded vh dups) := by
    unfold sorted_duplicates
    exact List.Pairwise.imp (fun hab => of_decide_eq_true hab) hsorted0
  have hperm : (sorted_duplicates loaded vh dups).Perm
      (dups.filter (fun p => (loaded p).isSome)) := by
    unfold sorted_duplicates
    exact List.mergeSort_perm _ _
  have hmem : ∀ p ∈ sorted_duplicates loaded vh dups, (loaded p).isSome :=
    fun p hp => (List.mem_filter.mp (hperm.subset hp)).2
  have hbound : ∀ p ∈ sorted_duplicates loaded vh dups,
      dupKey loaded vh p ≤ 1 := by
    intro p hp
    obtain ⟨g, hg⟩ := Option.isSome_iff_exists.mp (hmem p hp)
    simp only [dupKey, hg]
    split <;> omega
  obtain ⟨e, v, heq, he, hv⟩ :=
    sorted_partition (dupKey loaded vh) _ hsorted hbound
  have hmem' : ∀ p ∈ e ++ v, (loaded p).isSome := by
    rw [← heq]
    exact hmem
  have hcnt1 : (sorted_duplicates loaded vh dups).countP
      (fun p => dupKey loaded vh p = 1)
      = (dups.filter (fun p => (loaded p).isSome)).countP
        (fun p => dupKey loaded vh p = 1) := hperm.countP_eq _
  have hcnt0 : (sorted_duplicates loaded vh dups).countP
      (fun p => dupKey loaded vh p = 0)
      = (dups.filter (fun p => (loaded p).isSome)).countP
        (fun p => dupKey loaded vh p = 0) := hperm.countP_eq _
  have hce : e.countP (fun p => dupKey loaded vh p = 1) = 0 := by
    rw [List.countP_eq_zero]
    intro a ha
    simp only [decide_eq_true_eq]
    rw [he a ha]
    omega
  have hcv : v.countP (fun p => dupKey loaded vh p = 1) = v.length := by
    rw [List.countP_eq_length]
    intro a ha
    simp only [decide_eq_true_eq]
    exact hv a ha
  have hce0 : e.countP (fun p => dupKey loaded vh p = 0) = e.length := by
    rw [List.countP_eq_length]
    intro a ha
    simp only [decide_eq_true_eq]
    exact he a ha
  have hcv0 : v.countP (fun p => dupKey loaded vh p = 0) = 0 := by
    rw [List.countP_eq_zero]
    intro a ha
    simp only [decide_eq_true_eq]
    rw [hv a ha]
    omega
  refine ⟨e, v, heq, ?_, ?_, ?_, ?_, ?_⟩
  · intro p hp
    exact ⟨hmem' p (by simp [hp]), he p hp⟩
  · intro p hp
    exact ⟨hmem' p (by simp [hp]), hv p hp⟩
  · have := hperm.length_eq
    rw [heq, List.length_append] at this
    exact this
  · rw [← hcnt1, heq, List.countP_append, hce, hcv]
    omega
  · rw [← hcnt0, heq, List.countP_append, hce0, hcv0]
    omega

/-- The loop of `SpriteHandler.check_completion` (`src/spritehandler.py`
lines 360-370) with the running `prev_hash` (`prev`, initially the empty
string) made explicit: unloaded paths are skipped, the first loaded
sprite only seeds `prev_hash` (no vanilla comparison), and from the
second loaded sprite on, a hash differing from `prev_hash` or equal to
the vanilla hash returns `False`. -/
def checkGo (loaded : String → Option ℤ) (vh : String) :
    String → List String → Bool
  | _, [] => true
  | prev, p :: rest =>
    match loaded p with
    | none => checkGo loaded vh prev rest
    | some g =>
      if prev = "" then checkGo loaded vh (hashStr g) rest
      else if hashStr g ≠ prev ∨ hashStr g = vh then false
      else checkGo loaded vh prev rest

/-- Embedding of `SpriteHandler.check_completion` (lines 342-370);
`dups` are the group's member paths after the `sprite_path.joinpath`
rectification. -/
def check_completion (loaded : String → Option ℤ) (vh : String)
    (dups : List String) : Bool :=
  checkGo loaded vh "" dups

/-- If the loop succeeds from a non-empty `prev_hash`, every loaded
member's hash string equals `prev_hash`. -/
theorem checkGo_true_all_eq (loaded : String → Option ℤ) (vh : String) :
    ∀ (l : List String) (prev : String), prev ≠ "" →
    checkGo loaded vh prev l = true →
    ∀ p ∈ l, ∀ g : ℤ, loaded p = some g → hashStr g = prev := by
  intro l
  induction l with
  | nil =>
    intro prev _ _ p hp
    exact absurd hp (by simp)
  | cons a t ih =>
    intro prev hne htrue p hp g hg
    cases hl : loaded a with
    | none =>
      simp only [checkGo, hl] at htrue
      rcases List.mem_cons.mp hp with rfl | hp'
      · rw [hl] at hg
        cases hg
      · exact ih prev hne htrue p hp' g hg
    | some ga =>
      simp only [checkGo, hl] at htrue
      rw [if_neg hne] at htrue
      by_cases hcond : hashStr ga ≠ prev ∨ hashStr ga = vh
      · rw [if_pos hcond] at htrue
        cases htrue
      · rw [if_neg hcond] at htrue
        push_neg at hcond
        rcases List.mem_cons.mp hp with rfl | hp'
        · rw [hl] at hg
          injection hg with hga
          subst hga
          exact hcond.1
        · exact ih prev hne htrue p hp' g hg
    
/-- The loop returns `True` on a list with no loaded member, whatever
`prev_hash` holds. -/
theorem checkGo_no_loaded (loaded : String → Option ℤ) (vh : String) :
    ∀ (l : List String) (prev : String), (∀ p ∈ l, loaded p = none) →
    checkGo loaded vh prev l = true := by
  intro l
  induction l with
  | nil => intro prev _; rfl
  | cons a t ih =>
    intro prev hnone
    have hl : loaded a = none := hnone a (by simp)
    simp only [checkGo, hl]
    exact ih prev (fun p hp => hnone p (by simp [hp]))

/-- If `check_completion`'s loop succeeds from the initial empty
`prev_hash`, all loaded members share one hash string. -/
theorem checkGo_start_all_eq (loaded : String → Option ℤ) (vh : String) :
    ∀ l : List String, checkGo loaded vh "" l = true →
    ∀ p ∈ l, ∀ g : ℤ, loaded p = some g →
    ∀ q ∈ l, ∀ g' : ℤ, loaded q = some g' → hashStr g = hashStr g' := by
  intro l
  induction l with
  | nil =>
    intro _ p hp
    exact absurd hp (by simp)
  | cons a t ih =>
    intro htrue p hp g hg q hq g' hg'
    cases hl : loaded a with
    | none =>
      simp only [checkGo, hl] at htrue
      rcases List.mem_cons.mp hp with rfl | hp'
      · rw [hl] at hg
        cases hg
      · rcases List.mem_cons.mp hq with rfl | hq'
        · rw [hl] at hg'
          cases hg'
        · exact ih htrue p hp' g hg q hq' g' hg'
    | some ga =>
      simp only [checkGo, hl, if_true] at htrue
      have hrest := checkGo_true_all_eq loaded vh t (hashStr ga)
        (hashStr_ne_empty ga) htrue
      rcases List.mem_cons.mp hp with rfl | hp' <;>
        rcases List.mem_cons.mp hq with rfl | hq'
      · rw [hl] at hg hg'
        injection hg with e1
        injection hg' with e2
        rw [← e1, ← e2]
      · rw [hl] at hg
        injection hg with e1
        rw [← e1]
        exact (hrest q hq' g' hg').symm
      · rw [hl] at hg'
        injection hg' with e2
        rw [← e2]
        exact hrest p hp' g hg
      · rw [hrest p hp' g hg, hrest q hq' g' hg']

/-- C8: `check_completion` returns `False` for every group containing
two loaded members whose current content hashes differ (unloaded
members are skipped and cannot mask the divergence). -/
theorem check_completion_differing_false (loaded : String → Option ℤ)
    (vh : String) (dups : List String) (p q : String) (g1 g2 : ℤ)
    (hp : p ∈ dups) (hq : q ∈ dups) (hgp : loaded p = some g1)
    (hgq : loaded q = some g2) (hne : g1 ≠ g2) :
    check_completion loaded vh dups = false := by
  cases hres : check_completion loaded vh dups with
  | false => rfl
  | true =>
    exfalso
    have heqs := checkGo_start_all_eq loaded vh dups hres p hp g1 hgp
      q hq g2 hgq
    exact hne (hashStr_injective heqs)

/-- Registry for the C8 witness: `"a"` and `"b"` are loaded with
distinct hashes. -/
def c8Loaded : String → Option ℤ := fun p =>
  if p = "a" then some 0 else if p = "b" then some 1 else none

/-- Closed witness for `check_completion_differing_false`: a group with
two loaded members of differing hashes is reported incomplete. -/
theorem check_completion_differing_false_witness :
    check_completion c8Loaded "77" ["a", "b", "c"] = false :=
  check_completion_differing_false c8Loaded "77" ["a", "b", "c"] "a" "b" 0 1
    (by decide) (by decide) (by decide) (by decide) (by decide)

/-- C10: `check_completion` returns `True` for every group with at most
one loaded member - the comparison against the vanilla hash only starts
at the second loaded member, so even a single loaded member that still
matches vanilla passes. -/
theorem check_completion_at_most_one_loaded (loaded : String → Option ℤ)
    (vh : String) (dups : List String)
    (hfew : (dups.filter (fun p => (loaded p).isSome)).length ≤ 1) :
    check_completion loaded vh dups = true := by
  unfold check_completion
  induction dups with
  | nil => rfl
  | cons a t ih =>
    cases hl : loaded a with
    | none =>
      simp only [checkGo, hl]
      apply ih
      rw [List.filter_cons] at hfew
      simpa [hl] using hfew
    | some g =>
      simp only [checkGo, hl, if_true]
      have hzero : (t.filter (fun p => (loaded p).isSome)).length = 0 := by
        rw [List.filter_cons] at hfew
        simp only [hl, Option.isSome_some] at hfew
        simpa using hfew
      have hnone : ∀ p ∈ t, loaded p = none := by
        intro p hp
        by_contra hcon
        have hsome : (loaded p).isSome := Option.ne_none_iff_isSome.mp hcon
        have hmem : p ∈ t.filter (fun p => (loaded p).isSome) :=
          List.mem_filter.mpr ⟨hp, hsome⟩
        rw [List.length_eq_zero] at hzero
        rw [hzero] at hmem
        exact absurd hmem (by simp)
      exact checkGo_no_loaded loaded vh t (hashStr g) hnone

/-- Registry for the C10 witness: only `"a"` is loaded, with hash `5`. -/
def c10Loaded : String → Option ℤ := fun p =>
  if p = "a" then some 5 else none

/-- Closed witness for `check_completion_at_most_one_loaded`: a group
whose single loaded member still matches the vanilla hash (`vh` is
exactly `str(5)`) is nevertheless reported complete. -/
theorem check_completion_at_most_one_loaded_witness :
    ((["a", "b"].filter (fun p => (c10Loaded p).isSome)).length ≤ 1) ∧
      check_completion c10Loaded (hashStr 5) ["a", "b"] = true :=
  ⟨by decide,
    check_completion_at_most_one_loaded c10Loaded (hashStr 5) ["a", "b"]
      (by decide)⟩

/-- A PIL image as a pixel grid: rows top to bottom.  Each pixel's RGBA
tuple is collapsed to one integer - only pixel equality matters for the
cache behaviour verified here. -/
structure PyImage where
  data : List (List ℤ)
deriving DecidableEq, Repr

/-- Model of `im.size[1]` (the image height, which line 48 of
`src/Sprite.py` names `w`). -/
def PyImage.height (im : PyImage) : ℤ := im.data.length

/-- Model of `Image.crop((left, upper, right, lower))`: rows
`upper ≤ i < lower`, columns `left ≤ j < right`, in PIL's top-origin
coordinates (PIL's zero-padding of out-of-range boxes is not needed for
the cache behaviour and is not modelled). -/
def PyImage.crop (im : PyImage) (left upper right lower : ℤ) : PyImage :=
  ⟨((im.data.drop upper.toNat).take (lower - upper).toNat).map
    (fun row => (row.drop left.toNat).take (right - left).toNat)⟩

/-- Deterministic stand-in for `hash(tuple(map(tuple, im.getdata())))`
(line 52): Python's hash of a tuple of int-tuples is a pure,
deterministic function of the pixel values, which is all that the cache
behaviour depends on. -/
def pyHash (im : PyImage) : ℤ :=
  im.data.foldl
    (fun acc row => row.foldl (fun a px => a * 31 + px) (acc * 17 + 1)) 0

/-- State of a sprite's source file on disk: its stat modification time
(a float in Python, an integer timestamp here) and image content. -/
structure FileState where
  mtime : ℤ
  image : PyImage
deriving DecidableEq, Repr

/-- The name-mangled cache attributes `_Sprite__content` and
`_Sprite__hash`, unset (`none`) before the first `__update_file` run. -/
structure SpriteCache where
  content : Option PyImage
  hash : Option ℤ
deriving DecidableEq, Repr

/-- Result of one `image_hash` property access: the sprite and cache
after the call, the hash returned, and whether the source file's content
was (re-)read (`Image.open` executed). -/
structure HashCall where
  sprite : Sprite
  cache : SpriteCache
  hash : Option ℤ
  didRead : Bool
deriving DecidableEq, Repr

/-- Embedding of `Sprite.__update_file` (`src/Sprite.py` lines 32-52):
stat the file; if the mtime equals the stored one, return at once
without reading; otherwise store the new mtime, open the file, crop the
region `(xr, height - yr - h, xr + w, height - yr)` and cache the
cropped content and its hash. -/
def update_file (f : FileState) (s : Sprite) (c : SpriteCache) :
    Sprite × SpriteCache × Bool :=
  if some f.mtime = s.mtime then (s, c, false)
  else
    ({ s with mtime := some f.mtime },
      ⟨some (f.image.crop s.xr (f.image.height - s.yr - s.h) (s.xr + s.w)
          (f.image.height - s.yr)),
        some (pyHash (f.image.crop s.xr (f.image.height - s.yr - s.h)
          (s.xr + s.w) (f.image.height - s.yr)))⟩,
      true)

/-- Embedding of the `image_hash` property (`src/Sprite.py` lines
54-66): run `__update_file`, then return the cached `__hash` (`none`
models the `AttributeError` of an attribute never set, which cannot
happen once a read has occurred). -/
def image_hash (f : FileState) (s : Sprite) (c : SpriteCache) : HashCall :=
  ⟨(update_file f s c).1, (update_file f s c).2.1,
    (update_file f s c).2.1.hash, (update_file f s c).2.2⟩

/-- After any `image_hash` call the stored mtime equals the file's. -/
theorem image_hash_mtime (f : FileState) (s : Sprite) (c : SpriteCache) :
    (image_hash f s c).sprite.mtime = some f.mtime := by
  unfold image_hash update_file
  split
  · rename_i heq
    simpa using heq.symm
  · rfl

/-- An `image_hash` call on a sprite whose stored mtime matches the file
is a pure cache hit: no read, no state change, the cached hash. -/
theorem image_hash_hit (f : FileState) (s : Sprite) (c : SpriteCache)
    (h : s.mtime = some f.mtime) : image_hash f s c = ⟨s, c, c.hash, false⟩ := by
  unfold image_hash update_file
  rw [if_pos (by rw [h])]

/-- An `image_hash` call on a sprite whose stored mtime differs from the
file performs a content read. -/
theorem image_hash_read (f : FileState) (s : Sprite) (c : SpriteCache)
    (h : ¬some f.mtime = s.mtime) : (image_hash f s c).didRead = true := by
  unfold image_hash update_file
  rw [if_neg h]

/-- C9: with the file unchanged, a second `image_hash` call returns the
identical hash, performs no content re-read, and leaves the sprite's
stored mtime and cached pixels/hash exactly as the first call left them;
a file whose mtime differs forces a re-read on the next call. -/
theorem image_hash_cache (f : FileState) (s : Sprite) (c : SpriteCache)
    (f2 : FileState) (hm : f2.mtime ≠ f.mtime) :
    (image_hash f (image_hash f s c).sprite (image_hash f s c).cache).hash
        = (image_hash f s c).hash ∧
    (image_hash f (image_hash f s c).sprite (image_hash f s c).cache).didRead
        = false ∧
    (image_hash f (image_hash f s c).sprite (image_hash f s c).cache).sprite
        = (image_hash f s c).sprite ∧
    (image_hash f (image_hash f s c).sprite (image_hash f s c).cache).cache
        = (image_hash f s c).cache ∧
    (image_hash f2 (image_hash f s c).sprite (image_hash f s c).cache).didRead
        = true := by
  have h1 := image_hash_mtime f s c
  have hhit := image_hash_hit f (image_hash f s c).sprite
    (image_hash f s c).cache h1
  have hcoh : (image_hash f s c).hash = (image_hash f s c).cache.hash := rfl
  refine ⟨?_, ?_, ?_, ?_, ?_⟩
  · rw [hhit, hcoh]
  · rw [hhit]
  · rw [hhit]
  · rw [hhit]
  · refine image_hash_read f2 (image_hash f s c).sprite
      (image_hash f s c).cache ?_
    rw [h1]
    intro he
    injection he with he
    exact hm he

/-- Concrete file, sprite and cache states for the C9 witness. -/
def c9File : FileState := ⟨100, ⟨[[1, 2], [3, 4]]⟩⟩

/-- The same file content with a later modification time. -/
def c9File2 : FileState := ⟨101, ⟨[[1, 2], [3, 4]]⟩⟩

/-- A sprite with a 1x1 crop region and no cached mtime yet. -/
def c9Sprite : Sprite :=
  { identifier := 3, x := 0, y := 0, xr := 0, yr := 0, w := 1, h := 1,
    flipped := false, path := "Knight/Walk/0001.png", collection := "Knight" }

/-- Closed witness for `image_hash_cache` at the concrete states. -/
theorem image_hash_cache_witness :
    (image_hash c9File (image_hash c9File c9Sprite ⟨none, none⟩).sprite
        (image_hash c9File c9Sprite ⟨none, none⟩).cache).hash
        = (image_hash c9File c9Sprite ⟨none, none⟩).hash ∧
    (image_hash c9File (image_hash c9File c9Sprite ⟨none, none⟩).sprite
        (image_hash c9File c9Sprite ⟨none, none⟩).cache).didRead = false ∧
    (image_hash c9File (image_hash c9File c9Sprite ⟨none, none⟩).sprite
        (image_hash c9File c9Sprite ⟨none, none⟩).cache).sprite
        = (image_hash c9File c9Sprite ⟨none, none⟩).sprite ∧
    (image_hash c9File (image_hash c9File c9Sprite ⟨none, none⟩).sprite
        (image_hash c9File c9Sprite ⟨none, none⟩).cache).cache
        = (image_hash c9File c9Sprite ⟨none, none⟩).cache ∧
    (image_hash c9File2 (image_hash c9File c9Sprite ⟨none, none⟩).sprite
        (image_hash c9File c9Sprite ⟨none, none⟩).cache).didRead = true :=
  image_hash_cache c9File c9Sprite ⟨none, none⟩ c9File2 (by decide)
